import Mathlib

/-!
Shallow embedding of the session-management core of the `go-session`
repository (file `session.go`).  Time instants and durations are modelled
as integers; the external collaborators (Store, Codec, the entropy source
behind `generateToken`, and the clock `time.Now()`) are passed in
explicitly, so that every Manager operation becomes a pure function from
the session record, the store state and the external results to the new
record, the new store state and the returned values.
-/

namespace GoSession

/-- Time instants (`time.Time`) and durations (`time.Duration`), as integers. -/
abbrev Time := Int

/-- The zero `time.Time{}` value. -/
def timeZero : Time := 0

/-- Raw session bytes produced by the Codec. -/
abbrev Bytes := List Nat

/-- Errors.  `unmodified` is the distinguished `ErrUnmodified` sentinel of
`session.go`; the other constructors stand for arbitrary errors coming from
the external Store, Codec and entropy source. -/
inductive Err where
  | unmodified
  | storeFail (msg : String)
  | codecFail (msg : String)
  | randFail (msg : String)
  deriving DecidableEq, Repr

/-- `Status` represents the state of the session data during a request cycle
(`session.go` lines 19-34). -/
inductive Status where
  | unmodified
  | modified
  | destroyed
  deriving DecidableEq, Repr

/-- The session record (`sessionData`, `session.go` lines 54-60); the mutex
is omitted, concurrency being outside the shallow embedding. -/
structure SessionData (V : Type) where
  deadline : Time
  status : Status
  token : String
  values : List (String × V)
  deriving Repr

/-- The per-call options accepted by Load/Destroy/RenewToken.  The two
exported constructors of the source are `WithLifetime` (which reads the
clock itself) and `WithDeadline`; both only set the record's deadline
(`session.go` lines 40-52). -/
inductive Opt where
  | withLifetime (lifetime : Time)
  | withDeadline (deadline : Time)
  deriving DecidableEq, Repr

/-- Apply one option to a record (`option(sd)` in the source). -/
def applyOpt {V : Type} (now : Time) (sd : SessionData V) : Opt → SessionData V
  | .withLifetime lt => { sd with deadline := now + lt }
  | .withDeadline dl => { sd with deadline := dl }

/-- Apply a list of options in order (`for _, option := range options`). -/
def applyOpts {V : Type} (now : Time) (opts : List Opt) (sd : SessionData V) :
    SessionData V :=
  opts.foldl (applyOpt now) sd

/-- `newSessionData` (`session.go` lines 62-68). -/
def newSessionData {V : Type} (now lifetime : Time) : SessionData V :=
  { deadline := now + lifetime
    status := .unmodified
    token := ""
    values := [] }

/-- The external Store.  `data` is the persisted rows (token, bytes, expiry);
the `fail*` fields inject the error that the corresponding Store call would
return, `none` meaning the call succeeds. -/
structure Store where
  data : List (String × Bytes × Time)
  failFind : Option Err := none
  failCommit : Option Err := none
  failDelete : Option Err := none
  deriving Repr

/-- `doStoreFind` (`session.go` lines 758-766): returns the bytes for a
token; a miss is `ok none`, not an error. -/
def storeFind (st : Store) (token : String) : Except Err (Option Bytes) :=
  match st.failFind with
  | some e => .error e
  | none => .ok (((st.data.find? (fun r => r.1 == token)).map (fun r => r.2.1)))

/-- `doStoreDelete` (`session.go` lines 748-756): idempotent delete. -/
def storeDelete (st : Store) (token : String) : Store × Option Err :=
  match st.failDelete with
  | some e => (st, some e)
  | none => ({ st with data := st.data.filter (fun r => !(r.1 == token)) }, none)

/-- `doStoreCommit` (`session.go` lines 768-776): upsert of (bytes, expiry)
under the token. -/
def storeCommit (st : Store) (token : String) (b : Bytes) (expiry : Time) :
    Store × Option Err :=
  match st.failCommit with
  | some e => (st, some e)
  | none =>
    ({ st with data := (token, b, expiry) :: st.data.filter (fun r => !(r.1 == token)) },
     none)

/-- The persisted row for a token, if any. -/
def storeRow (st : Store) (token : String) : Option (Bytes × Time) :=
  (st.data.find? (fun r => r.1 == token)).map (fun r => r.2)

/-- The external Codec (`scs.Codec`): encodes/decodes a (deadline, values)
pair to/from bytes; either direction may fail. -/
structure Codec (V : Type) where
  encode : Time → List (String × V) → Except Err Bytes
  decode : Bytes → Except Err (Time × List (String × V))

/-- The Manager configuration (`session.go` lines 94-121): the idle timeout
(0 = disabled), the absolute lifetime, and the Codec.  The Store is passed
to each operation as explicit state. -/
structure Manager (V : Type) where
  idleTimeout : Time
  lifetime : Time
  codec : Codec V

/-- Go map lookup `vs[k]` on the values mapping. -/
def lookupV {V : Type} (vs : List (String × V)) (k : String) : Option V :=
  (vs.find? (fun p => p.1 == k)).map Prod.snd

/-- Go map `delete(vs, k)`. -/
def eraseV {V : Type} (vs : List (String × V)) (k : String) : List (String × V) :=
  vs.filter (fun p => !(p.1 == k))

/-- Go map assignment `vs[k] = v` (overwrites any existing entry). -/
def insertV {V : Type} (vs : List (String × V)) (k : String) (v : V) :
    List (String × V) :=
  (k, v) :: eraseV vs k

/-- `Manager.Load` (`session.go` lines 160-200).  `ctxSd` is the record the
scope already carries, if any; the result is the record attached to the
returned context (on error the context is returned unchanged). -/
def load {V : Type} (m : Manager V) (ctxSd : Option (SessionData V))
    (token : String) (now : Time) (opts : List Opt) (store : Store) :
    Except Err (SessionData V) :=
  match ctxSd with
  | some sd => .ok sd
  | none =>
    if token = "" then
      .ok (applyOpts now opts (newSessionData now m.lifetime))
    else
      match storeFind store token with
      | .error e => .error e
      | .ok none => .ok (applyOpts now opts (newSessionData now m.lifetime))
      | .ok (some b) =>
        match m.codec.decode b with
        | .error e => .error e
        | .ok (dl, vals) =>
          .ok { deadline := dl
                status := if 0 < m.idleTimeout then .modified else .unmodified
                token := token
                values := vals }

/-- The expiry computation of `Manager.Commit` (`session.go` lines 247-253):
start from the absolute deadline, and cap it at now + idle timeout when an
idle timeout is configured. -/
def commitExpiry {V : Type} (m : Manager V) (now dl : Time) : Time :=
  if 0 < m.idleTimeout then
    (if now + m.idleTimeout < dl then now + m.idleTimeout else dl)
  else dl

/-- `Manager.Commit` (`session.go` lines 229-260).  `gen` is the result the
entropy source would give `generateToken` if consulted; `generateToken`
itself, when it succeeds, always returns the 43-character unpadded base64
encoding of 32 random bytes, never the empty string. -/
def commit {V : Type} (m : Manager V) (gen : Except Err String) (now : Time)
    (sd : SessionData V) (store : Store) :
    SessionData V × Store × Except Err (String × Time) :=
  match (if sd.token = "" then gen else .ok sd.token) with
  | .error e => (sd, store, .error e)
  | .ok tok =>
    match m.codec.encode sd.deadline sd.values with
    | .error e => ({ sd with token := tok }, store, .error e)
    | .ok b =>
      match storeCommit store tok b (commitExpiry m now sd.deadline) with
      | (store1, some e) => ({ sd with token := tok }, store1, .error e)
      | (store1, none) =>
        ({ sd with token := tok }, store1, .ok (tok, commitExpiry m now sd.deadline))

/-- `Manager.Save` (`session.go` lines 208-222): dispatch on the record's
status. -/
def save {V : Type} (m : Manager V) (gen : Except Err String) (now : Time)
    (sd : SessionData V) (store : Store) :
    SessionData V × Store × Except Err (String × Time) :=
  match sd.status with
  | .modified => commit m gen now sd store
  | .destroyed => (sd, store, .ok ("", timeZero))
  | .unmodified => (sd, store, .error .unmodified)

/-- `Manager.Destroy` (`session.go` lines 265-289). -/
def destroy {V : Type} (m : Manager V) (now : Time) (opts : List Opt)
    (sd : SessionData V) (store : Store) :
    SessionData V × Store × Option Err :=
  match storeDelete store sd.token with
  | (store1, some e) => (sd, store1, some e)
  | (store1, none) =>
    let sd1 := { sd with
                 status := Status.destroyed
                 token := ""
                 deadline := now + m.lifetime }
    let sd2 := applyOpts now opts sd1
    ({ sd2 with values := [] }, store1, none)

/-- `Manager.Put` (`session.go` lines 294-301). -/
def put {V : Type} (sd : SessionData V) (key : String) (v : V) : SessionData V :=
  { sd with values := insertV sd.values key v, status := .modified }

/-- `Manager.Pop` (`session.go` lines 327-341): the returned value and the
new record. -/
def pop {V : Type} (sd : SessionData V) (key : String) :
    Option V × SessionData V :=
  match lookupV sd.values key with
  | none => (none, sd)
  | some v =>
    (some v, { sd with values := eraseV sd.values key, status := .modified })

/-- `Manager.Remove` (`session.go` lines 346-359). -/
def remove {V : Type} (sd : SessionData V) (key : String) : SessionData V :=
  match lookupV sd.values key with
  | none => sd
  | some _ => { sd with values := eraseV sd.values key, status := .modified }

/-- `Manager.Clear` (`session.go` lines 364-379); the returned error is the
function's `error` result, which is `nil` on both paths. -/
def clear {V : Type} (sd : SessionData V) : SessionData V × Option Err :=
  if sd.values.isEmpty then (sd, none)
  else ({ sd with values := [], status := .modified }, none)

/-- `Manager.RenewToken` (`session.go` lines 424-448). -/
def renewToken {V : Type} (m : Manager V) (gen : Except Err String)
    (now : Time) (opts : List Opt) (sd : SessionData V) (store : Store) :
    SessionData V × Store × Option Err :=
  match storeDelete store sd.token with
  | (store1, some e) => (sd, store1, some e)
  | (store1, none) =>
    match gen with
    | .error e => (sd, store1, some e)
    | .ok newTok =>
      let sd1 := { sd with token := newTok, deadline := now + m.lifetime }
      let sd2 := applyOpts now opts sd1
      ({ sd2 with status := .modified }, store1, none)

/-- `Manager.MergeSession` (`session.go` lines 453-486). -/
def mergeSession {V : Type} (m : Manager V) (sd : SessionData V)
    (store : Store) (token : String) : SessionData V × Store × Option Err :=
  match storeFind store token with
  | .error e => (sd, store, some e)
  | .ok none => (sd, store, none)
  | .ok (some b) =>
    match m.codec.decode b with
    | .error e => (sd, store, some e)
    | .ok (dl, vals) =>
      if sd.token = token then (sd, store, none)
      else
        let sd1 := if sd.deadline < dl then { sd with deadline := dl } else sd
        let sd2 := { sd1 with
                     values := vals.foldl (fun acc kv => insertV acc kv.1 kv.2) sd1.values,
                     status := .modified }
        match storeDelete store token with
        | (store1, err) => (sd2, store1, err)

/-- The deadline produced by folding the per-call options over a starting
deadline; options only ever touch the deadline field. -/
def optDeadline (now : Time) (opts : List Opt) (dl : Time) : Time :=
  opts.foldl
    (fun _ o =>
      match o with
      | .withLifetime lt => now + lt
      | .withDeadline t => t)
    dl

/-- The values merged into `cur` by the `for k, v := range values` loop of
`MergeSession`. -/
def mergeVals {V : Type} (cur foreign : List (String × V)) : List (String × V) :=
  foreign.foldl (fun acc kv => insertV acc kv.1 kv.2) cur

/-- A concrete Codec over Nat values, used for the concrete instances below:
its decoder reads the byte list into a deadline (the length) and a one-entry
values mapping. -/
def natCodec : Codec Nat where
  encode := fun _ _ => Except.ok [1]
  decode := fun b => Except.ok (Int.ofNat b.length, [("k", b.headD 0)])

/-- A Manager with the default configuration: no idle timeout. -/
def mgr0 : Manager Nat :=
  { idleTimeout := 0, lifetime := 24, codec := natCodec }

/-- A Manager with an idle timeout of 10 configured. -/
def mgrIdle : Manager Nat :=
  { idleTimeout := 10, lifetime := 24, codec := natCodec }

/-- An empty, fully functional store. -/
def st0 : Store := { data := [] }

def sdModW : SessionData Nat :=
  { deadline := 100, status := .modified, token := "", values := [("a", 2)] }

def sdDesW : SessionData Nat :=
  { deadline := 100, status := .destroyed, token := "t", values := [] }

def sdUnmW : SessionData Nat :=
  { deadline := 100, status := .unmodified, token := "t", values := [] }

def sdC2 : SessionData Nat :=
  { deadline := 100, status := .modified, token := "t", values := [("a", 2)] }

def sdC3 : SessionData Nat :=
  { deadline := 100, status := .modified, token := "", values := [("a", 2)] }

def sdC4 : SessionData Nat :=
  { deadline := 5, status := .modified, token := "t", values := [("a", 1)] }

def stC4 : Store := { data := [("t", [9], 50)] }

def sdC5 : SessionData Nat :=
  { deadline := 5, status := .modified, token := "t", values := [("a", 1)] }

def stC5 : Store :=
  { data := [("t", [9], 50)], failDelete := some (Err.storeFail "boom") }

def stC6 : Store := { data := [("t", [7], 99)] }

def sdC7 : SessionData Nat :=
  { deadline := 50, status := .unmodified, token := "t", values := [("a", 3)] }

def stC7 : Store := { data := [], failFind := some (Err.storeFail "down") }

def sdC7W : SessionData Nat :=
  { deadline := 50, status := .unmodified, token := "t", values := [] }

def stC7W : Store := { data := [("t", [4], 60)] }

def sdC8 : SessionData Nat :=
  { deadline := 100, status := .unmodified, token := "old", values := [("a", 1)] }

def sdC9 : SessionData Nat :=
  { deadline := 50, status := .unmodified, token := "cur", values := [("k", 3), ("a", 1)] }

def stC9 : Store :=
  { data := [("f", [7], 90)], failDelete := some (Err.storeFail "boom") }

def sdC10 : SessionData Nat :=
  { deadline := 40, status := .unmodified, token := "", values := [] }

theorem applyOpt_status {V : Type} (now : Time) (sd : SessionData V) (o : Opt) :
    (applyOpt now sd o).status = sd.status := by
  cases o <;> rfl

theorem applyOpt_token {V : Type} (now : Time) (sd : SessionData V) (o : Opt) :
    (applyOpt now sd o).token = sd.token := by
  cases o <;> rfl

theorem applyOpt_values {V : Type} (now : Time) (sd : SessionData V) (o : Opt) :
    (applyOpt now sd o).values = sd.values := by
  cases o <;> rfl

theorem applyOpts_cons {V : Type} (now : Time) (o : Opt) (rest : List Opt)
    (sd : SessionData V) :
    applyOpts now (o :: rest) sd = applyOpts now rest (applyOpt now sd o) := rfl

theorem applyOpts_status {V : Type} (now : Time) (opts : List Opt)
    (sd : SessionData V) : (applyOpts now opts sd).status = sd.status := by
  induction opts generalizing sd with
  | nil => rfl
  | cons o rest ih => rw [applyOpts_cons, ih, applyOpt_status]

theorem applyOpts_token {V : Type} (now : Time) (opts : List Opt)
    (sd : SessionData V) : (applyOpts now opts sd).token = sd.token := by
  induction opts generalizing sd with
  | nil => rfl
  | cons o rest ih => rw [applyOpts_cons, ih, applyOpt_token]

theorem applyOpts_values {V : Type} (now : Time) (opts : List Opt)
    (sd : SessionData V) : (applyOpts now opts sd).values = sd.values := by
  induction opts generalizing sd with
  | nil => rfl
  | cons o rest ih => rw [applyOpts_cons, ih, applyOpt_values]

theorem applyOpts_deadline {V : Type} (now : Time) (opts : List Opt)
    (sd : SessionData V) :
    (applyOpts now opts sd).deadline = optDeadline now opts sd.deadline := by
  induction opts generalizing sd with
  | nil => rfl
  | cons o rest ih =>
    rw [applyOpts_cons, ih]
    cases o <;> rfl

theorem lookupV_cons {V : Type} (k0 : String) (v0 : V) (rest : List (String × V))
    (k : String) :
    lookupV ((k0, v0) :: rest) k = if k0 = k then some v0 else lookupV rest k := by
  by_cases h : k0 = k
  · rw [if_pos h]
    unfold lookupV
    rw [List.find?_cons_of_pos]
    · rfl
    · simpa using h
  · rw [if_neg h]
    unfold lookupV
    rw [List.find?_cons_of_neg]
    simpa using h

theorem eraseV_cons_self {V : Type} (k0 : String) (v0 : V)
    (rest : List (String × V)) (k : String) (h : k0 = k) :
    eraseV ((k0, v0) :: rest) k = eraseV rest k := by
  simp [eraseV, List.filter_cons, h]

theorem eraseV_cons_ne {V : Type} (k0 : String) (v0 : V)
    (rest : List (String × V)) (k : String) (h : ¬k0 = k) :
    eraseV ((k0, v0) :: rest) k = (k0, v0) :: eraseV rest k := by
  simp [eraseV, List.filter_cons, h]

theorem lookupV_erase_ne {V : Type} (vs : List (String × V)) (k k' : String)
    (h : k' ≠ k) : lookupV (eraseV vs k) k' = lookupV vs k' := by
  induction vs with
  | nil => rfl
  | cons kv rest ih =>
    obtain ⟨k0, v0⟩ := kv
    by_cases hk : k0 = k
    · rw [eraseV_cons_self k0 v0 rest k hk, ih, lookupV_cons,
        if_neg (fun hh : k0 = k' => h (by rw [← hh, hk]))]
    · rw [eraseV_cons_ne k0 v0 rest k hk, lookupV_cons, lookupV_cons, ih]

theorem lookupV_insert_self {V : Type} (vs : List (String × V)) (k : String)
    (v : V) : lookupV (insertV vs k v) k = some v := by
  rw [insertV, lookupV_cons, if_pos rfl]

theorem lookupV_insert_ne {V : Type} (vs : List (String × V)) (k k' : String)
    (v : V) (h : k' ≠ k) : lookupV (insertV vs k v) k' = lookupV vs k' := by
  rw [insertV, lookupV_cons, if_neg (fun hh => h hh.symm), lookupV_erase_ne vs k k' h]

theorem lookupV_eq_none_of_not_mem {V : Type} (vs : List (String × V))
    (k : String) (h : k ∉ vs.map Prod.fst) : lookupV vs k = none := by
  induction vs with
  | nil => rfl
  | cons kv rest ih =>
    obtain ⟨k0, v0⟩ := kv
    simp only [List.map_cons, List.mem_cons, not_or] at h
    rw [lookupV_cons, if_neg (fun hh => h.1 hh.symm), ih h.2]

theorem mergeVals_lookup {V : Type} (foreign : List (String × V))
    (hnd : (foreign.map Prod.fst).Nodup) :
    ∀ cur : List (String × V),
      (∀ k v, lookupV foreign k = some v → lookupV (mergeVals cur foreign) k = some v) ∧
      (∀ k, lookupV foreign k = none → lookupV (mergeVals cur foreign) k = lookupV cur k) := by
  induction foreign with
  | nil =>
    intro cur
    exact ⟨fun k v h => by simp [lookupV] at h, fun k _ => rfl⟩
  | cons kv rest ih =>
    intro cur
    obtain ⟨k0, v0⟩ := kv
    simp only [List.map_cons, List.nodup_cons] at hnd
    have hmerge : mergeVals cur ((k0, v0) :: rest) = mergeVals (insertV cur k0 v0) rest := rfl
    constructor
    · intro k v h
      rw [lookupV_cons] at h
      by_cases hk : k0 = k
      · rw [if_pos hk] at h
        cases h
        have hnone : lookupV rest k = none :=
          lookupV_eq_none_of_not_mem rest k (hk ▸ hnd.1)
        rw [hmerge, (ih hnd.2 (insertV cur k0 v0)).2 k hnone, ← hk,
          lookupV_insert_self]
      · rw [if_neg hk] at h
        rw [hmerge]
        exact (ih hnd.2 (insertV cur k0 v0)).1 k v h
    · intro k h
      rw [lookupV_cons] at h
      by_cases hk : k0 = k
      · rw [if_pos hk] at h; cases h
      · rw [if_neg hk] at h
        rw [hmerge, (ih hnd.2 (insertV cur k0 v0)).2 k h,
          lookupV_insert_ne cur k0 k v0 (fun hh => hk hh.symm)]

theorem storeCommit_none_row (st : Store) (token : String) (b : Bytes)
    (expiry : Time) (st' : Store)
    (h : storeCommit st token b expiry = (st', none)) :
    storeRow st' token = some (b, expiry) := by
  unfold storeCommit at h
  rcases hc : st.failCommit with _ | e <;> rw [hc] at h
  · simp only [Prod.mk.injEq] at h
    rw [← h.1]
    unfold storeRow
    rw [List.find?_cons_of_pos]
    · rfl
    · simp
  · simp at h

/-- Inversion of a successful `Commit`: how the record, the token, the expiry
and the store are related to the inputs. -/
theorem commit_ok_inv {V : Type} (m : Manager V) (gen : Except Err String)
    (now : Time) (sd : SessionData V) (store : Store) (sd' : SessionData V)
    (store' : Store) (tok : String) (expiry : Time)
    (h : commit m gen now sd store = (sd', store', .ok (tok, expiry))) :
    sd' = { sd with token := tok } ∧
    ((sd.token = "" ∧ gen = Except.ok tok) ∨ (sd.token ≠ "" ∧ tok = sd.token)) ∧
    expiry = commitExpiry m now sd.deadline ∧
    ∃ b, m.codec.encode sd.deadline sd.values = Except.ok b ∧
      storeCommit store tok b expiry = (store', none) := by
  unfold commit at h
  rcases hgen : (if sd.token = "" then gen else Except.ok sd.token) with e | tok0 <;>
    rw [hgen] at h
  · simp at h
  · rcases henc : m.codec.encode sd.deadline sd.values with e | b <;> rw [henc] at h
    · simp at h
    · dsimp only [] at h
      rcases hsc : storeCommit store tok0 b (commitExpiry m now sd.deadline) with
        ⟨store1, err⟩
      rw [hsc] at h
      rcases err with _ | e
      · simp only [Prod.mk.injEq, Except.ok.injEq] at h
        obtain ⟨h1, h2, h3, h4⟩ := h
        subst h3
        subst h4
        refine ⟨h1.symm, ?_, rfl, b, rfl, by rw [hsc, h2]⟩
        by_cases ht : sd.token = ""
        · rw [if_pos ht] at hgen
          exact Or.inl ⟨ht, hgen⟩
        · rw [if_neg ht] at hgen
          exact Or.inr ⟨ht, (Except.ok.inj hgen).symm⟩
      · simp at h

/-- C1: Save dispatches on the record's current status: when the status is
Modified, Save returns exactly what Commit returns (record, store and
result); when it is Destroyed, Save returns the empty token and the zero
time with no error; when it is Unmodified, Save returns the distinguished
ErrUnmodified sentinel, which is distinct from every Store, Codec and
randomness error. -/
theorem c1_save_dispatch {V : Type} (m : Manager V) (gen : Except Err String)
    (now : Time) (sd : SessionData V) (store : Store) :
    (sd.status = Status.modified →
      save m gen now sd store = commit m gen now sd store) ∧
    (sd.status = Status.destroyed →
      save m gen now sd store = (sd, store, Except.ok ("", timeZero))) ∧
    (sd.status = Status.unmodified →
      save m gen now sd store = (sd, store, Except.error Err.unmodified)) ∧
    (∀ msg, Err.unmodified ≠ Err.storeFail msg ∧
      Err.unmodified ≠ Err.codecFail msg ∧ Err.unmodified ≠ Err.randFail msg) := by
  refine ⟨fun h => ?_, fun h => ?_, fun h => ?_, fun msg => by
    refine ⟨?_, ?_, ?_⟩ <;> intro hc <;> cases hc⟩ <;>
    (unfold save; rw [h])

theorem c1_save_dispatch_witness :
    save mgr0 (Except.ok "tok") 5 sdModW st0 =
      commit mgr0 (Except.ok "tok") 5 sdModW st0 ∧
    save mgr0 (Except.ok "tok") 5 sdDesW st0 =
      (sdDesW, st0, Except.ok ("", timeZero)) ∧
    save mgr0 (Except.ok "tok") 5 sdUnmW st0 =
      (sdUnmW, st0, Except.error Err.unmodified) :=
  ⟨(c1_save_dispatch mgr0 (Except.ok "tok") 5 sdModW st0).1 rfl,
   (c1_save_dispatch mgr0 (Except.ok "tok") 5 sdDesW st0).2.1 rfl,
   (c1_save_dispatch mgr0 (Except.ok "tok") 5 sdUnmW st0).2.2.1 rfl⟩

/-- C2: a successful Commit returns (token, expiry) where the expiry equals
min(record deadline, now + idle timeout) when the idle timeout is positive
and equals the record deadline exactly when the idle timeout is zero; that
same expiry is what is persisted in the store under the token. -/
theorem c2_commit_expiry {V : Type} (m : Manager V) (gen : Except Err String)
    (now : Time) (sd : SessionData V) (store : Store) (sd' : SessionData V)
    (store' : Store) (tok : String) (expiry : Time)
    (h : commit m gen now sd store = (sd', store', Except.ok (tok, expiry))) :
    (0 < m.idleTimeout → expiry = min sd.deadline (now + m.idleTimeout)) ∧
    (m.idleTimeout = 0 → expiry = sd.deadline) ∧
    ∃ b, storeRow store' tok = some (b, expiry) := by
  obtain ⟨-, -, hexp, b, henc, hsc⟩ :=
    commit_ok_inv m gen now sd store sd' store' tok expiry h
  refine ⟨?_, ?_, b, storeCommit_none_row store tok b expiry store' hsc⟩
  · intro hidle
    rw [hexp]
    unfold commitExpiry
    rw [if_pos hidle]
    rcases lt_or_ge (now + m.idleTimeout) sd.deadline with hlt | hge
    · rw [if_pos hlt, min_eq_right hlt.le]
    · rw [if_neg (not_lt.mpr hge), min_eq_left hge]
  · intro h0
    rw [hexp]
    unfold commitExpiry
    rw [h0]
    simp

theorem c2_commit_expiry_witness :
    (10 : Int) = min sdC2.deadline (0 + mgrIdle.idleTimeout) :=
  (c2_commit_expiry mgrIdle (Except.ok "g") 0 sdC2 st0 _ _ "t" 10 rfl).1 (by decide)

/-- C3: Commit generates a token only when the record's token is empty, so a
token is assigned at most once per record lifetime: across two consecutive
successful Commits with no intervening Destroy or RenewToken, the second
Commit returns the same token as the first, and a Commit on a record that
already carries a token returns that token. -/
theorem c3_commit_token_stable {V : Type} (m : Manager V)
    (gen₁ gen₂ : Except Err String) (now₁ now₂ : Time) (sd : SessionData V)
    (store : Store) (sd₁ : SessionData V) (store₁ : Store) (tok₁ : String)
    (exp₁ : Time) (sd₂ : SessionData V) (store₂ : Store) (tok₂ : String)
    (exp₂ : Time)
    (hgen : ∀ t, gen₁ = Except.ok t → t ≠ "")
    (h₁ : commit m gen₁ now₁ sd store = (sd₁, store₁, Except.ok (tok₁, exp₁)))
    (h₂ : commit m gen₂ now₂ sd₁ store₁ = (sd₂, store₂, Except.ok (tok₂, exp₂))) :
    tok₂ = tok₁ ∧ (sd.token ≠ "" → tok₁ = sd.token) := by
  obtain ⟨hsd₁, hcase₁, -, -⟩ := commit_ok_inv _ _ _ _ _ _ _ _ _ h₁
  obtain ⟨-, hcase₂, -, -⟩ := commit_ok_inv _ _ _ _ _ _ _ _ _ h₂
  have htok₁ : sd₁.token = tok₁ := by rw [hsd₁]
  have hne : tok₁ ≠ "" := by
    rcases hcase₁ with ⟨ht, hg⟩ | ⟨ht, heq⟩
    · exact hgen tok₁ hg
    · rw [heq]
      exact ht
  constructor
  · rcases hcase₂ with ⟨ht, -⟩ | ⟨-, heq⟩
    · rw [htok₁] at ht
      exact absurd ht hne
    · rw [heq, htok₁]
  · intro ht
    rcases hcase₁ with ⟨ht', -⟩ | ⟨-, heq⟩
    · exact absurd ht' ht
    · exact heq

theorem c3_commit_token_stable_witness :
    "tk" = "tk" ∧ (sdC3.token ≠ "" → "tk" = sdC3.token) :=
  c3_commit_token_stable mgr0 (Except.ok "tk") (Except.ok "g2") 0 1 sdC3 st0
    _ _ "tk" _ _ _ "tk" _
    (fun t ht => by
      injection ht with h2
      subst h2
      decide)
    rfl rfl

/-- C4: the claim as stated is false on the code: after a successful Destroy
the record's status is Destroyed, not Unmodified — the reset touches only
token, deadline and values. -/
theorem c4_counterexample :
    (destroy mgr0 0 [] sdC4 stC4).2.2 = none ∧
    (destroy mgr0 0 [] sdC4 stC4).1.status ≠ Status.unmodified := by
  constructor
  · rfl
  · decide

/-- C4 (amended): a successful Destroy sets the status to Destroyed (the
immediate reset does not return it to Unmodified), sets the token to the
empty string, sets the deadline to now + default lifetime before the
supplied options are applied, and clears all values. -/
theorem c4_destroy_reset {V : Type} (m : Manager V) (now : Time)
    (opts : List Opt) (sd : SessionData V) (store : Store)
    (sd' : SessionData V) (store' : Store)
    (h : destroy m now opts sd store = (sd', store', none)) :
    sd'.status = Status.destroyed ∧ sd'.token = "" ∧ sd'.values = [] ∧
    sd'.deadline = optDeadline now opts (now + m.lifetime) := by
  unfold destroy at h
  rcases hd : storeDelete store sd.token with ⟨store1, err⟩
  rw [hd] at h
  rcases err with _ | e
  · dsimp only [] at h
    simp only [Prod.mk.injEq] at h
    obtain ⟨h1, -, -⟩ := h
    rw [← h1]
    refine ⟨?_, ?_, rfl, ?_⟩
    · simp [applyOpts_status]
    · simp [applyOpts_token]
    · simp [applyOpts_deadline]
  · simp at h

theorem c4_destroy_reset_witness :
    (destroy mgr0 0 [] sdC4 stC4).1.status = Status.destroyed ∧
    (destroy mgr0 0 [] sdC4 stC4).1.token = "" ∧
    (destroy mgr0 0 [] sdC4 stC4).1.values = [] ∧
    (destroy mgr0 0 [] sdC4 stC4).1.deadline = optDeadline 0 [] (0 + mgr0.lifetime) :=
  c4_destroy_reset mgr0 0 [] sdC4 stC4 _ _ rfl

/-- C5: if the Store delete inside Destroy fails, Destroy returns that error
and both the record and the store are exactly as they were before the
call. -/
theorem c5_destroy_atomic {V : Type} (m : Manager V) (now : Time)
    (opts : List Opt) (sd : SessionData V) (store : Store) (e : Err)
    (h : store.failDelete = some e) :
    destroy m now opts sd store = (sd, store, some e) := by
  unfold destroy storeDelete
  rw [h]

theorem c5_destroy_atomic_witness :
    destroy mgr0 0 [] sdC5 stC5 = (sdC5, stC5, some (Err.storeFail "boom")) :=
  c5_destroy_atomic mgr0 0 [] sdC5 stC5 (Err.storeFail "boom") rfl

/-- C6: on a scope with no record, Load with an empty token or a Store miss
yields a fresh record (empty token, status Unmodified, empty values,
deadline now + default lifetime folded through the caller's options); on a
Store hit whose bytes decode, Load yields a record carrying the decoded
deadline and values whose status is Modified exactly when an idle timeout
is configured. -/
theorem c6_load_cases {V : Type} (m : Manager V) (token : String) (now : Time)
    (opts : List Opt) (store : Store) :
    (token = "" ∨ storeFind store token = Except.ok none →
      ∃ sd, load m none token now opts store = Except.ok sd ∧
        sd.token = "" ∧ sd.status = Status.unmodified ∧ sd.values = [] ∧
        sd.deadline = optDeadline now opts (now + m.lifetime)) ∧
    (∀ b dl vals, token ≠ "" → storeFind store token = Except.ok (some b) →
      m.codec.decode b = Except.ok (dl, vals) →
      ∃ sd, load m none token now opts store = Except.ok sd ∧
        sd.token = token ∧ sd.deadline = dl ∧ sd.values = vals ∧
        (sd.status = Status.modified ↔ 0 < m.idleTimeout)) := by
  constructor
  · intro hc
    refine ⟨applyOpts now opts (newSessionData now m.lifetime), ?_, ?_, ?_, ?_, ?_⟩
    · unfold load
      rcases hc with hc | hc
      · rw [if_pos hc]
      · by_cases ht : token = ""
        · rw [if_pos ht]
        · rw [if_neg ht, hc]
    · rw [applyOpts_token]
      rfl
    · rw [applyOpts_status]
      rfl
    · rw [applyOpts_values]
      rfl
    · rw [applyOpts_deadline]
      rfl
  · intro b dl vals ht hf hd
    refine ⟨{ deadline := dl
              status := if 0 < m.idleTimeout then Status.modified else Status.unmodified
              token := token
              values := vals }, ?_, rfl, rfl, rfl, ?_⟩
    · unfold load
      rw [if_neg ht, hf]
      dsimp only []
      rw [hd]
    · by_cases hidle : 0 < m.idleTimeout
      · simp [hidle]
      · simp [hidle]

theorem c6_load_cases_witness :
    (∃ sd, load mgr0 none "" 0 [] st0 = Except.ok sd ∧
      sd.token = "" ∧ sd.status = Status.unmodified ∧ sd.values = [] ∧
      sd.deadline = optDeadline 0 [] (0 + mgr0.lifetime)) ∧
    (∃ sd, load mgr0 none "t" 0 [] stC6 = Except.ok sd ∧
      sd.token = "t" ∧ sd.deadline = 1 ∧ sd.values = [("k", 7)] ∧
      (sd.status = Status.modified ↔ 0 < mgr0.idleTimeout)) :=
  ⟨(c6_load_cases mgr0 "" 0 [] st0).1 (Or.inl rfl),
   (c6_load_cases mgr0 "t" 0 [] stC6).2 [7] 1 [("k", 7)] (by decide) rfl rfl⟩

/-- C7: the claim as stated is false on the code: with a store whose lookup
of the foreign token fails, MergeSession returns that error even though the
foreign token equals the current record's token (the equality check only
happens after the Store find and the decode). -/
theorem c7_counterexample :
    sdC7.token = "t" ∧ (mergeSession mgr0 sdC7 stC7 "t").2.2 ≠ none := by
  constructor
  · rfl
  · decide

/-- C7 (amended): when the foreign token equals the current record's token
and the Store lookup (and the decode of any found bytes) succeeds,
MergeSession returns no error and leaves the record and the store contents
completely unchanged. -/
theorem c7_merge_noop {V : Type} (m : Manager V) (sd : SessionData V)
    (store : Store) (token : String) (heq : sd.token = token) :
    (storeFind store token = Except.ok none →
      mergeSession m sd store token = (sd, store, none)) ∧
    (∀ b dl vals, storeFind store token = Except.ok (some b) →
      m.codec.decode b = Except.ok (dl, vals) →
      mergeSession m sd store token = (sd, store, none)) := by
  constructor
  · intro hf
    unfold mergeSession
    rw [hf]
  · intro b dl vals hf hd
    unfold mergeSession
    rw [hf]
    dsimp only []
    rw [hd]
    dsimp only []
    rw [if_pos heq]

theorem c7_merge_noop_witness :
    mergeSession mgr0 sdC7W st0 "t" = (sdC7W, st0, none) ∧
    mergeSession mgr0 sdC7W stC7W "t" = (sdC7W, stC7W, none) :=
  ⟨(c7_merge_noop mgr0 sdC7W st0 "t" rfl).1 rfl,
   (c7_merge_noop mgr0 sdC7W stC7W "t" rfl).2 [4] 1 [("k", 4)] rfl rfl⟩

/-- C8: a successful RenewToken leaves the values mapping exactly unchanged,
assigns the freshly generated token, resets the deadline to now + default
lifetime before the supplied options are applied, and sets the status to
Modified. -/
theorem c8_renewToken_frame {V : Type} (m : Manager V)
    (gen : Except Err String) (now : Time) (opts : List Opt)
    (sd : SessionData V) (store : Store) (sd' : SessionData V) (store' : Store)
    (h : renewToken m gen now opts sd store = (sd', store', none)) :
    sd'.values = sd.values ∧
    (∃ t, gen = Except.ok t ∧ sd'.token = t) ∧
    sd'.deadline = optDeadline now opts (now + m.lifetime) ∧
    sd'.status = Status.modified := by
  unfold renewToken at h
  rcases hd : storeDelete store sd.token with ⟨store1, err⟩
  rw [hd] at h
  rcases err with _ | e
  · dsimp only [] at h
    rcases hg : gen with e | t <;> rw [hg] at h
    · simp at h
    · dsimp only [] at h
      simp only [Prod.mk.injEq] at h
      obtain ⟨h1, -, -⟩ := h
      rw [← h1]
      refine ⟨?_, ⟨t, rfl, ?_⟩, ?_, rfl⟩
      · simp [applyOpts_values]
      · simp [applyOpts_token]
      · simp [applyOpts_deadline]
  · simp at h

theorem c8_renewToken_frame_witness :
    (renewToken mgr0 (Except.ok "new") 0 [] sdC8 st0).1.values = sdC8.values ∧
    (∃ t, (Except.ok "new" : Except Err String) = Except.ok t ∧
      (renewToken mgr0 (Except.ok "new") 0 [] sdC8 st0).1.token = t) ∧
    (renewToken mgr0 (Except.ok "new") 0 [] sdC8 st0).1.deadline =
      optDeadline 0 [] (0 + mgr0.lifetime) ∧
    (renewToken mgr0 (Except.ok "new") 0 [] sdC8 st0).1.status = Status.modified :=
  c8_renewToken_frame mgr0 (Except.ok "new") 0 [] sdC8 st0 _ _ rfl

/-- C9: when the foreign token is found and decodes but the Store delete of
the foreign row fails, MergeSession returns that error while the in-memory
record already carries every merge effect: status Modified, deadline the
maximum of the two deadlines, and every foreign key copied in (overwriting
the current value on collision, current values kept on foreign misses). -/
theorem c9_merge_delete_failure {V : Type} (m : Manager V)
    (sd : SessionData V) (store : Store) (token : String) (b : Bytes)
    (dl : Time) (vals : List (String × V)) (e : Err)
    (hfind : storeFind store token = Except.ok (some b))
    (hdec : m.codec.decode b = Except.ok (dl, vals))
    (hne : ¬sd.token = token)
    (hdel : store.failDelete = some e)
    (hnd : (vals.map Prod.fst).Nodup) :
    (mergeSession m sd store token).2.2 = some e ∧
    (mergeSession m sd store token).1.status = Status.modified ∧
    (mergeSession m sd store token).1.deadline = max sd.deadline dl ∧
    (∀ k v, lookupV vals k = some v →
      lookupV (mergeSession m sd store token).1.values k = some v) ∧
    (∀ k, lookupV vals k = none →
      lookupV (mergeSession m sd store token).1.values k = lookupV sd.values k) := by
  have hm : mergeSession m sd store token =
      ({ (if sd.deadline < dl then { sd with deadline := dl } else sd) with
         values := mergeVals
           (if sd.deadline < dl then { sd with deadline := dl } else sd).values vals
         status := Status.modified }, store, some e) := by
    unfold mergeSession
    rw [hfind]
    dsimp only []
    rw [hdec]
    dsimp only []
    rw [if_neg hne]
    unfold storeDelete
    rw [hdel]
    rfl
  have hv : (if sd.deadline < dl then { sd with deadline := dl } else sd).values
      = sd.values := by
    by_cases hlt : sd.deadline < dl <;> simp [hlt]
  rw [hm]
  refine ⟨rfl, rfl, ?_, ?_, ?_⟩
  · by_cases hlt : sd.deadline < dl
    · simp only [if_pos hlt]
      rw [max_eq_right hlt.le]
    · simp only [if_neg hlt]
      rw [max_eq_left (not_lt.mp hlt)]
  · intro k v hk
    dsimp only []
    rw [hv]
    exact (mergeVals_lookup vals hnd sd.values).1 k v hk
  · intro k hk
    dsimp only []
    rw [hv]
    exact (mergeVals_lookup vals hnd sd.values).2 k hk

theorem c9_merge_delete_failure_witness :
    (mergeSession mgr0 sdC9 stC9 "f").2.2 = some (Err.storeFail "boom") ∧
    (mergeSession mgr0 sdC9 stC9 "f").1.status = Status.modified ∧
    (mergeSession mgr0 sdC9 stC9 "f").1.deadline = max sdC9.deadline 1 ∧
    lookupV (mergeSession mgr0 sdC9 stC9 "f").1.values "k" = some 7 ∧
    lookupV (mergeSession mgr0 sdC9 stC9 "f").1.values "a" = lookupV sdC9.values "a" := by
  obtain ⟨h1, h2, h3, h4, h5⟩ :=
    c9_merge_delete_failure mgr0 sdC9 stC9 "f" [7] 1 [("k", 7)]
      (Err.storeFail "boom") rfl rfl (by decide) rfl (by decide)
  exact ⟨h1, h2, h3, h4 "k" 7 rfl, h5 "a" rfl⟩

/-- C10: mutating accessors with nothing to remove are complete no-ops: Pop
on an absent key returns nil and the record unchanged, Remove on an absent
key returns the record unchanged, and Clear on an empty values mapping
returns no error and the record unchanged — so an Unmodified record stays
Unmodified. -/
theorem c10_noop_mutators {V : Type} (sd : SessionData V) (key : String) :
    (lookupV sd.values key = none →
      pop sd key = (none, sd) ∧ remove sd key = sd) ∧
    (sd.values = [] → clear sd = (sd, none)) := by
  constructor
  · intro h
    constructor
    · unfold pop
      rw [h]
    · unfold remove
      rw [h]
  · intro h
    unfold clear
    rw [h]
    rfl

theorem c10_noop_mutators_witness :
    (pop sdC10 "x" = (none, sdC10) ∧ remove sdC10 "x" = sdC10) ∧
    clear sdC10 = (sdC10, none) :=
  ⟨(c10_noop_mutators sdC10 "x").1 rfl, (c10_noop_mutators sdC10 "x").2 rfl⟩

end GoSession
